import Mathlib

/-!
# LIPA-360 data pipeline: a shallow embedding

This file embeds the data-processing pipeline of the LIPA-360 repository
(`app.py` : `process_data`, `clean_lipa`, `prepare_df`; `visualizations.py` :
the seven per-partition views) as executable Lean definitions, and proves the
frozen specification claims about it.

Modelling conventions:
* Cells read by `pd.read_excel(dtype=str)` are `Option String` (`none` = the
  missing-value NaN).
* The creation-date column after `pd.to_datetime(..., errors='coerce')` is an
  `Option Date` (`none` = NaT, i.e. a missing cell or a row-level parse
  failure; the string-to-date parse itself is pandas library code, outside the
  repository, so its result is taken as the input of the embedding).
* Machine floats never carry claim-relevant content here: the only fractional
  quantities (percentages, the average age) are embedded as `ℚ`.
* pandas quirks that the code relies on are reproduced and documented at each
  definition (string coercion of missing values, NaN comparison semantics,
  descending-sort tie order, groupby/count null handling).
-/

namespace LIPA

/-- Python's substring test `pat in hay`, also the effect of the regex
`str.contains` calls in `visualizations.py` once case folding is applied. -/
def containsSub (hay pat : String) : Bool := decide (pat.data <:+: hay.data)

/-- Python `str.startswith`, on the character list (the byte-position
arithmetic of core's `String.startsWith` is irrelevant to the embedding). -/
def pyStartsWith (s pre : String) : Bool := pre.data.isPrefixOf s.data

/-- Python `str.lower` / the effect of `re.IGNORECASE`, character by
character (the inputs in question are ASCII). -/
def pyLower (s : String) : String := String.mk (s.data.map Char.toLower)

/-- Lexicographic comparison of character lists: Python's string order,
used by pandas when it sorts group keys. -/
def lexLe (a b : List Char) : Bool :=
  match a, b with
  | [], _ => true
  | _ :: _, [] => false
  | c :: cs, d :: ds => if c = d then lexLe cs ds else decide (c < d)

def strLe (a b : String) : Bool := lexLe a.data b.data

/-- Insert into an ascending list, before the first element not smaller:
a stable ascending insertion for a boolean comparator. -/
def insertAscBy {α : Type} (le : α → α → Bool) (x : α) : List α → List α
  | [] => [x]
  | y :: ys => if le x y then x :: y :: ys else y :: insertAscBy le x ys

/-- Stable ascending insertion sort for a boolean comparator; used for the
sorted group keys that pandas `groupby`/`pivot_table` emit. -/
def sortAscBy {α : Type} (le : α → α → Bool) : List α → List α
  | [] => []
  | x :: xs => insertAscBy le x (sortAscBy le xs)

def sortStrings (l : List String) : List String := sortAscBy strLe l

/-- Python `str x` as pandas `astype(str)` applies it to an object column whose
missing entries are the Python `None` (the externalId column after the
`clean_lipa` apply): `None` prints as the text "None". -/
def pyStrNone : Option String → String
  | some s => s
  | none => "None"

/-- pandas `astype(str)` on a column straight out of `read_excel(dtype=str)`,
whose missing entries are the float NaN: `str(nan)` is the text "nan". -/
def pyStrNan : Option String → String
  | some s => s
  | none => "nan"

/-- A calendar timestamp as the embedded pipeline observes it: `epochDay`
drives the whole-day subtraction producing the `Day` column and the weekly
binning; `year`, `month`, `dom` are the civil fields read by `.dt.month` and
`strftime`.  No consistency between the two views is needed anywhere in the
development. -/
structure Date where
  epochDay : Int
  year : Int
  month : Nat
  dom : Nat
deriving DecidableEq

/-- One raw input row, with the creation-date column already coerced
(`errors='coerce'`, failures to NaT = `none`) and every other cell an
optional string, exactly the state of the frame at `app.py` line 55. -/
structure RawRow where
  combinedStatus : Option String
  extDlvID : Option String
  reasonDesc : Option String
  createdOn : Option Date
  processStatus : Option String
  deliveryNo : Option String
  customerRef : Option String
  materialNumber : Option String
  materialDescription : Option String
  quantity : Option String
  modelSeries : Option String
deriving DecidableEq

inductive Region where
  | USA
  | Germany
deriving DecidableEq

/-- `clean_lipa` (app.py lines 59-63): when 'Combined Status' is present and
contains the case-sensitive substring "GSS Classic", the externalId column is
replaced by the sentinel "GSS classic"; otherwise the cell is kept as a string
when present and the Python `None` when missing. -/
def clean_lipa (row : RawRow) : Option String :=
  match row.combinedStatus with
  | some s =>
      if containsSub s "GSS Classic" then some "GSS classic" else row.extDlvID
  | none => row.extDlvID

/-- Region resolution (app.py line 65):
`astype(str).str.startswith('7').map({True:'USA', False:'Germany'})`.
`astype(str)` turns a missing externalId into the text "None", which does not
start with '7'. -/
def regionOfExt (ext : Option String) : Region :=
  if pyStartsWith (pyStrNone ext) "7" then Region.USA else Region.Germany

/-- Reason-code fill (app.py line 66): `fillna("")` then
`replace("", "GSS classic")` — a missing or empty reason becomes the sentinel
"GSS classic". -/
def fillReason : Option String → String
  | none => "GSS classic"
  | some s => if s = "" then "GSS classic" else s

/-- A classified record: the columns of the frame after app.py line 67. -/
structure Rec where
  extDlvID : Option String
  createdOn : Option Date
  day : Option Int
  region : Region
  reasonDesc : String
  processStatus : Option String
  deliveryNo : Option String
  customerRef : Option String
  materialNumber : Option String
  materialDescription : Option String
  quantity : Option String
  modelSeries : Option String
deriving DecidableEq

/-- The per-row column derivations of app.py lines 55-67, in source order:
`Day` is the whole-day difference today − createdOn (NaT propagates to NaN =
`none`); the externalId column is rewritten by `clean_lipa`; `Region` is
computed from that rewritten, pre-overwrite externalId; the reason column is
filled; finally `df.loc[reason == 'GSS classic', extDlvID] = ""` blanks the
externalId of sentinel-reason rows, after `Region` was already fixed. -/
def processRow (today : Date) (r : RawRow) : Rec :=
  let ext1 := clean_lipa r
  let reason := fillReason r.reasonDesc
  { extDlvID := if reason = "GSS classic" then some "" else ext1
    createdOn := r.createdOn
    day := r.createdOn.map fun d => today.epochDay - d.epochDay
    region := regionOfExt ext1
    reasonDesc := reason
    processStatus := r.processStatus
    deliveryNo := r.deliveryNo
    customerRef := r.customerRef
    materialNumber := r.materialNumber
    materialDescription := r.materialDescription
    quantity := r.quantity
    modelSeries := r.modelSeries }

/-- The aging filter `df = df[df['Day'] > 10]` (app.py line 68).  A NaN `Day`
(unparsable creation date) compares False against 10, so the row is dropped. -/
def retained (rec : Rec) : Bool :=
  match rec.day with
  | some d => decide (10 < d)
  | none => false

/-- The classifier stage of `process_data`: derive all columns on every row,
then apply the aging filter (which preserves input order). -/
def process_data (today : Date) (rows : List RawRow) : List Rec :=
  (rows.map (processRow today)).filter retained

/-- The fixed `required_cols` projection of app.py lines 70-75, in column
order. -/
structure ProjRow where
  extDlvID : Option String
  createdOn : Option Date
  day : Option Int
  deliveryNo : Option String
  processStatus : Option String
  reasonDesc : String
  customerRef : Option String
  materialNumber : Option String
  materialDescription : Option String
  quantity : Option String
  modelSeries : Option String
deriving DecidableEq

def project (r : Rec) : ProjRow :=
  { extDlvID := r.extDlvID
    createdOn := r.createdOn
    day := r.day
    deliveryNo := r.deliveryNo
    processStatus := r.processStatus
    reasonDesc := r.reasonDesc
    customerRef := r.customerRef
    materialNumber := r.materialNumber
    materialDescription := r.materialDescription
    quantity := r.quantity
    modelSeries := r.modelSeries }

/-- Insert `x` into a descending list, before the first element whose key is
not larger: a stable descending insertion. -/
def insertDescBy (key : α → Int) (x : α) : List α → List α
  | [] => [x]
  | y :: ys => if key y ≤ key x then x :: y :: ys else y :: insertDescBy key x ys

/-- Descending insertion sort by an integer key, embedding
`sort_values(by='Day', ascending=False)`.  The code guarantees only the
descending key order: the default `kind='quicksort'` (numpy introsort) is
documented as not stable, so the order among equal keys is
implementation-defined above numpy's small-array insertion-sort regime
(pandas `nargsort` reverses the values, argsorts, and reverses the indexer,
which preserves tie input order exactly when the underlying argsort happens
to be stable).  This embedding fixes one concrete tie order; no theorem
below relies on it — only on the key order and the permutation. -/
def sortDescBy (key : α → Int) : List α → List α
  | [] => []
  | x :: xs => insertDescBy key x (sortDescBy key xs)

/-- Sort key for the 'Day' column; only applied to rows whose `day` is
present (`nargsort` splits NaNs off first), so the `getD` default is never
observable. -/
def dayKey (r : ProjRow) : Int := r.day.getD 0

/-- `sort_values(by='Day', ascending=False)` on the projected frame: the
non-NaN rows in descending key order (tie order as fixed in `sortDescBy`),
then (`na_position='last'`) the NaN rows in input order. -/
def sortDescNan (l : List ProjRow) : List ProjRow :=
  sortDescBy dayKey (l.filter fun r => r.day.isSome) ++
    l.filter fun r => r.day.isNone

/-- One row of a prepared partition frame: the 'Sr No.' column inserted at
the front, the projected record, and the two columns that the aggregator
views later write into the frame (absent, `none`, until they do). -/
structure PRow where
  srNo : Nat
  row : ProjRow
  ageBucket : Option String := none
  model : Option String := none
deriving DecidableEq

/-- `prepare_df` (app.py lines 77-81): project to `required_cols`, sort
descending by 'Day', reset the index and insert 'Sr No.' = 1..N. -/
def prepare_df (l : List Rec) : List PRow :=
  (sortDescNan (l.map project)).enum.map fun p => { srNo := p.1 + 1, row := p.2 }

/-- The per-region outputs of `process_data` (app.py lines 83-84): a prepared
frame when the region occurs in the 'Region' column, an explicit empty frame
otherwise (the filtered frame is empty in that case as well, so both arms
yield the empty list of rows). -/
def partitionOf (today : Date) (rows : List RawRow) (reg : Region) : List PRow :=
  let df := process_data today rows
  if df.any fun r => r.region == reg then
    prepare_df (df.filter fun r => r.region == reg)
  else []

/-! ### Aggregator views (`visualizations.py`)

Each view is embedded as a function from the partition frame to the pair
(view output, the frame as the caller sees it afterwards).  Every view
returns `none` on an empty frame (`if df.empty: return None`).  Views that
only read the frame, or that work on `df.copy()` or on the fresh frames
returned by `nlargest`/`value_counts`/`groupby`, hand the frame back
unchanged; `create_aging_distribution` and `create_heatmap` assign new
columns to the caller's frame itself. -/

/-- `df['Day'] > n` on a row: a NaN day compares False. -/
def dayGT (n : Int) (r : PRow) : Bool :=
  match r.row.day with
  | some d => decide (n < d)
  | none => false

/-- The regex filter `str.contains('closed|completed', case=False, na=False)`
after `astype(str)`: the lowered text contains "closed" or "completed". -/
def statusClosedLike (s : String) : Bool :=
  containsSub (pyLower s) "closed" || containsSub (pyLower s) "completed"

/-- The headline numbers of `create_kpi_cards`.  The two percentages and the
mean are exact rationals here (the floats carry no claim-relevant content);
`avgAgingDays` is the skipna mean of the 'Day' column, with the `x / 0 = 0`
convention of `ℚ` standing in for the NaN that pandas produces when no day is
present (no claim touches that corner). -/
structure KPI where
  total : Nat
  over30 : Nat
  over60 : Nat
  pct30 : ℚ
  pct60 : ℚ
  closedThisMonth : Nat
  avgAgingDays : ℚ
deriving DecidableEq

/-- `create_kpi_cards` (visualizations.py lines 8-40).  The "closed this
month" metric (lines 19-22) filters on `dt.month == current_month` alone —
the `current_year` computed on line 20 is never used — and then keeps the
rows whose 'Process status', coerced by `astype(str)` (NaN to "nan"),
case-insensitively contains "closed" or "completed".  A NaT creation date
has NaN month and fails the month comparison. -/
def create_kpi_cards (today : Date) (df : List PRow) : Option KPI × List PRow :=
  if df.isEmpty then (none, df) else
  let total := df.length
  let over30 := (df.filter (dayGT 30)).length
  let over60 := (df.filter (dayGT 60)).length
  let thisMonth := df.filter fun r =>
    match r.row.createdOn with
    | some d => d.month == today.month
    | none => false
  let closed :=
    (thisMonth.filter fun r => statusClosedLike (pyStrNan r.row.processStatus)).length
  let days := df.filterMap fun r => r.row.day
  ( some
      { total := total
        over30 := over30
        over60 := over60
        pct30 := if 0 < total then (over30 : ℚ) / (total : ℚ) * 100 else 0
        pct60 := if 0 < total then (over60 : ℚ) / (total : ℚ) * 100 else 0
        closedThisMonth := closed
        avgAgingDays := ((days.foldl (· + ·) 0 : Int) : ℚ) / (days.length : ℚ) },
    df )

/-- Start of the calendar week containing epoch day `d`:
`to_period('W').start_time` is the Monday of the week.  Epoch day 0
(1970-01-01) was a Thursday, so day −3 was a Monday. -/
def weekStart (d : Int) : Int := d - (d + 3) % 7

/-- `create_aging_trend` (visualizations.py lines 42-90): works on
`df.copy()` (the 'Week' column lands on the copy only), groups by week and
emits, per week present in the data in ascending order, the count of
non-null 'LIPA No. / Delivery' cells (`'count'` skips nulls) and the counts
with day > 30 and day > 60.  Rows with NaT creation date have no week and
are dropped by groupby. -/
def create_aging_trend (df : List PRow) :
    Option (List (Int × Nat × Nat × Nat)) × List PRow :=
  if df.isEmpty then (none, df) else
  let weeks := sortAscBy (fun a b : Int => decide (a ≤ b))
    ((df.filterMap fun r => r.row.createdOn.map fun d => weekStart d.epochDay).dedup)
  ( some (weeks.map fun w =>
      let grp := df.filter fun r =>
        match r.row.createdOn with
        | some d => weekStart d.epochDay == w
        | none => false
      ( w, (grp.filter fun r => r.row.deliveryNo.isSome).length,
        (grp.filter (dayGT 30)).length, (grp.filter (dayGT 60)).length )),
    df )

/-- The four bucket labels of `create_aging_distribution`, in category
order. -/
def bucketLabels : List String := ["0-30 days", "31-60 days", "61-90 days", ">90 days"]

/-- `pd.cut(df['Day'], bins=[0, 30, 60, 90, inf], labels, right=False)`:
half-open intervals [0,30), [30,60), [60,90), [90,∞), closed on the left, so
a day of exactly 30 lands in "31-60 days"; values below 0 fall outside every
bin and become NaN. -/
def ageBucketOf (d : Int) : Option String :=
  if 0 ≤ d ∧ d < 30 then some "0-30 days"
  else if 30 ≤ d ∧ d < 60 then some "31-60 days"
  else if 60 ≤ d ∧ d < 90 then some "61-90 days"
  else if 90 ≤ d then some ">90 days"
  else none

/-- The 'Age Bucket' cell of a row: NaN day gives NaN bucket. -/
def rowBucket (r : PRow) : Option String := r.row.day.bind ageBucketOf

/-- The column assignment `df['Age Bucket'] = pd.cut(df['Day'], ...)` of
`create_aging_distribution`: applied to the frame it receives, not to a
copy. -/
def agingTag (df : List PRow) : List PRow :=
  df.map fun r => { r with ageBucket := rowBucket r }

/-- `groupby(['Age Bucket', 'Reason code desc.']).size()` on the tagged
frame.  'Age Bucket' is categorical, and groupby's default `observed=False`
emits every one of the four categories crossed with every observed reason
(zero counts kept), the reasons in sorted key order; rows whose bucket is
NaN are dropped by groupby. -/
def agingHist (df : List PRow) : List ((String × String) × Nat) :=
  let df1 := agingTag df
  let reasons := sortStrings (df1.map fun r => r.row.reasonDesc).dedup
  bucketLabels.flatMap fun b => reasons.map fun c =>
    ((b, c),
      (df1.filter fun r => decide (r.ageBucket = some b ∧ r.row.reasonDesc = c)).length)

/-- `create_aging_distribution` (visualizations.py lines 92-116): assigns the
'Age Bucket' column **to the caller's frame** (no copy is taken), then
cross-tabulates bucket × reason. -/
def create_aging_distribution (df : List PRow) :
    Option (List ((String × String) × Nat)) × List PRow :=
  if df.isEmpty then (none, df) else (some (agingHist df), agingTag df)

/-- `create_reason_distribution` (visualizations.py lines 118-139):
`value_counts` over the reason column — one entry per distinct reason with
its count, ordered by descending count ('Reason code desc.' is never null
after the classifier's fill).  The order among equal counts is not fixed by
this embedding (pandas leaves it to hash-table iteration order); no claim
depends on it. -/
def create_reason_distribution (df : List PRow) :
    Option (List (String × Nat)) × List PRow :=
  if df.isEmpty then (none, df) else
  let reasons := (df.map fun r => r.row.reasonDesc).dedup
  ( some (sortDescBy (fun p => (p.2 : Int))
      (reasons.map fun c => (c, (df.filter fun r => r.row.reasonDesc == c).length))),
    df )

/-- `create_status_donut` (visualizations.py lines 141-164): `value_counts`
over 'Process status'; null statuses are dropped (`dropna=True`). -/
def create_status_donut (df : List PRow) :
    Option (List (String × Nat)) × List PRow :=
  if df.isEmpty then (none, df) else
  let sts := (df.filterMap fun r => r.row.processStatus).dedup
  ( some (sortDescBy (fun p => (p.2 : Int))
      (sts.map fun s => (s, (df.filter fun r => r.row.processStatus == some s).length))),
    df )

def pad2 (n : Nat) : String := if n < 10 then "0" ++ toString n else toString n

def pad4 (y : Int) : String :=
  if y < 0 then toString y
  else
    let s := toString y.toNat
    String.mk (List.replicate (4 - s.length) '0') ++ s

/-- `strftime('%Y-%m-%d')`. -/
def fmtDate (d : Date) : String := pad4 d.year ++ "-" ++ pad2 d.month ++ "-" ++ pad2 d.dom

/-- One displayed row of the top-10 table, in its column order. -/
structure TopRow where
  deliveryNo : Option String
  createdOn : Option String
  day : Option Int
  materialNumber : Option String
  customerRef : Option String
  reasonDesc : String
deriving DecidableEq

/-- `create_top_aging_table` (visualizations.py lines 166-191):
`nlargest(10, 'Day')` — the ten rows with the largest day values, ties
resolved in favour of earlier rows (`keep='first'`, i.e. a stable descending
selection) and NaN-day rows never selected — projected to six columns with
the creation date formatted by `strftime` on a frame of its own (`nlargest`
returns a new frame, the caller's frame is untouched). -/
def create_top_aging_table (df : List PRow) : Option (List TopRow) × List PRow :=
  if df.isEmpty then (none, df) else
  let top := (sortDescBy (fun r : PRow => r.row.day.getD 0)
      (df.filter fun r => r.row.day.isSome)).take 10
  ( some (top.map fun r =>
      { deliveryNo := r.row.deliveryNo
        createdOn := r.row.createdOn.map fmtDate
        day := r.row.day
        materialNumber := r.row.materialNumber
        customerRef := r.row.customerRef
        reasonDesc := r.row.reasonDesc }),
    df )

/-- `create_heatmap` (visualizations.py lines 193-225): assigns the 'Model'
column — `astype(str).str[:4]` of 'Material number', so a missing cell
becomes "nan" and strings shorter than 4 stay as they are — **to the
caller's frame** (no copy is taken), then pivots: for every observed model
(rows, sorted) and observed reason (columns, sorted), the count of non-null
'LIPA No. / Delivery' cells (`aggfunc='count'`), absent combinations filled
with 0. -/
def create_heatmap (df : List PRow) :
    Option (List (String × List (String × Nat))) × List PRow :=
  if df.isEmpty then (none, df) else
  let df1 := df.map fun r => { r with model := some ((pyStrNan r.row.materialNumber).take 4) }
  let models := sortStrings (df1.filterMap fun r => r.model).dedup
  let reasons := sortStrings (df1.map fun r => r.row.reasonDesc).dedup
  ( some (models.map fun m =>
      (m, reasons.map fun c =>
        (c, (df1.filter fun r =>
          r.model == some m && r.row.reasonDesc == c && r.row.deliveryNo.isSome).length))),
    df1 )

/-- Modelled from the spec (§4.3 headline counts, the source of claim C1):
the count of records whose creation month AND year both equal the current
month and year and whose status case-insensitively contains "closed" or
"completed".  Kept separate from `create_kpi_cards`, which is the embedding
of the code. -/
def closedThisMonthSpec (today : Date) (df : List PRow) : Nat :=
  ((df.filter fun r =>
      match r.row.createdOn with
      | some d => d.month == today.month && d.year == today.year
      | none => false).filter
    fun r => statusClosedLike (pyStrNan r.row.processStatus)).length

/-- The whole-file operation `process_data` with its surrounding try/except:
reading the workbook either yields rows or raises, and the except arm returns
the failure flag with the single exception message and no partial partitions
(`(False, str(e), None)`).  Row-level date-parse failures were already
absorbed as NaT by `errors='coerce'` and never raise. -/
def process_data_run (today : Date) (input : Except String (List RawRow)) :
    Except String (List PRow × List PRow) :=
  match input with
  | Except.error msg => Except.error msg
  | Except.ok rows =>
      Except.ok (partitionOf today rows Region.USA, partitionOf today rows Region.Germany)

/-! ### Concrete sample data

A fixed "today" (2026-10-12, epoch day 20738) and a handful of raw rows
exercising every branch of the classifier; the witnesses below evaluate the
pipeline on them. -/

def demoToday : Date := { epochDay := 20738, year := 2026, month := 10, dom := 12 }

/-- 'Combined Status' contains "GSS Classic", the external id starts with
'7', the reason is blank; created 38 days before `demoToday`. -/
def demoRowClassic : RawRow :=
  { combinedStatus := some "xx GSS Classic yy", extDlvID := some "7001234",
    reasonDesc := none, createdOn := some ⟨20700, 2026, 9, 4⟩,
    processStatus := some "Open", deliveryNo := some "D1", customerRef := some "C1",
    materialNumber := some "ABC1234", materialDescription := some "md",
    quantity := some "1", modelSeries := some "MS" }

/-- Same ageDays as `demoRowClassic` (an aging tie), later in the input. -/
def demoRowClassic2 : RawRow := { demoRowClassic with deliveryNo := some "D5" }

/-- A plain USA row ('7…' external id), status "Closed", 38 days old. -/
def demoRowUSA : RawRow :=
  { combinedStatus := none, extDlvID := some "7009999",
    reasonDesc := some "late", createdOn := some ⟨20700, 2026, 9, 4⟩,
    processStatus := some "Closed", deliveryNo := some "D2", customerRef := none,
    materialNumber := some "XY", materialDescription := none,
    quantity := none, modelSeries := none }

/-- A row whose creation date failed to parse (NaT). -/
def demoRowNoDate : RawRow :=
  { combinedStatus := none, extDlvID := some "123",
    reasonDesc := some "r", createdOn := none,
    processStatus := none, deliveryNo := some "D3", customerRef := none,
    materialNumber := none, materialDescription := none,
    quantity := none, modelSeries := none }

/-- A row aged exactly 10 days, with a missing external id. -/
def demoRowTen : RawRow :=
  { combinedStatus := none, extDlvID := none,
    reasonDesc := some "r", createdOn := some ⟨20728, 2026, 10, 2⟩,
    processStatus := some "completed", deliveryNo := some "D4", customerRef := none,
    materialNumber := none, materialDescription := none,
    quantity := none, modelSeries := none }

/-- Created 2025-10-11 — the same calendar month as `demoToday` but one year
earlier — with a status containing "Closed". -/
def demoRowOldOct : RawRow :=
  { combinedStatus := none, extDlvID := some "7123",
    reasonDesc := some "r", createdOn := some ⟨20368, 2025, 10, 11⟩,
    processStatus := some "Closed by ops", deliveryNo := some "D9", customerRef := none,
    materialNumber := some "MAT12345", materialDescription := none,
    quantity := none, modelSeries := none }

def demoRows : List RawRow :=
  [demoRowClassic, demoRowClassic2, demoRowUSA, demoRowNoDate, demoRowTen]

/-- The Germany partition of `demoRows`: the two sentinel rows, both aged 38
days. -/
def demoPartG : List PRow := partitionOf demoToday demoRows Region.Germany

/-- A one-record USA partition whose record was created in October 2025. -/
def demoKpiPart : List PRow := partitionOf demoToday [demoRowOldOct] Region.USA

/-- The bucket × reason histogram of `demoPartG` as the embedded view
computes it. -/
def demoHistG : List ((String × String) × Nat) :=
  [(("0-30 days", "GSS classic"), 0), (("31-60 days", "GSS classic"), 2),
   (("61-90 days", "GSS classic"), 0), ((">90 days", "GSS classic"), 0)]

/-! ### Sorting lemmas -/

theorem insertDescBy_perm {α : Type} (key : α → Int) (x : α) (l : List α) :
    (insertDescBy key x l).Perm (x :: l) := by
  induction l with
  | nil => exact List.Perm.refl _
  | cons y ys ih =>
      by_cases h : key y ≤ key x
      · rw [insertDescBy, if_pos h]
      · rw [insertDescBy, if_neg h]
        exact (ih.cons y).trans (List.Perm.swap x y ys)

theorem sortDescBy_perm {α : Type} (key : α → Int) (l : List α) :
    (sortDescBy key l).Perm l := by
  induction l with
  | nil => exact List.Perm.refl _
  | cons x xs ih => exact (insertDescBy_perm key x _).trans (ih.cons x)

/-! ### Partitioner lemmas -/

theorem sortDescNan_perm (l : List ProjRow) : (sortDescNan l).Perm l := by
  have he : (l.filter fun r => r.day.isNone) =
      l.filter fun r => !(r.day.isSome) := by
    apply List.filter_congr
    intro a _
    cases a.day <;> rfl
  rw [sortDescNan, he]
  exact ((sortDescBy_perm dayKey _).append_right _).trans
    (List.filter_append_perm _ l)

theorem prepare_df_map_row (l : List Rec) :
    (prepare_df l).map (fun p => p.row) = sortDescNan (l.map project) := by
  rw [prepare_df, List.map_map]
  have hf : ((fun p : PRow => p.row) ∘
      fun p : Nat × ProjRow => ({ srNo := p.1 + 1, row := p.2 } : PRow)) =
      Prod.snd := rfl
  rw [hf, List.enum_map_snd]

theorem prepare_df_length (l : List Rec) : (prepare_df l).length = l.length := by
  have h1 : (prepare_df l).length = ((prepare_df l).map fun p => p.row).length :=
    (List.length_map _ _).symm
  rw [h1, prepare_df_map_row, (sortDescNan_perm _).length_eq, List.length_map]

theorem partitionOf_eq (today : Date) (rows : List RawRow) (reg : Region) :
    partitionOf today rows reg =
      prepare_df ((process_data today rows).filter fun r => r.region == reg) := by
  rw [partitionOf]
  by_cases h : ((process_data today rows).any fun r => r.region == reg) = true
  · rw [if_pos h]
  · rw [if_neg h]
    have hnil : ((process_data today rows).filter fun r => r.region == reg) = [] := by
      rw [List.filter_eq_nil_iff]
      intro a ha hpa
      exact h (List.any_eq_true.mpr ⟨a, ha, hpa⟩)
    rw [hnil]
    rfl

/-! ### Classifier lemmas -/

theorem day_of_mem_process_data {today : Date} {rows : List RawRow} {rec : Rec}
    (h : rec ∈ process_data today rows) : ∃ d, rec.day = some d ∧ 10 < d := by
  have hr := (List.mem_filter.mp h).2
  simp only [retained] at hr
  cases hd : rec.day with
  | none => rw [hd] at hr; exact Bool.noConfusion hr
  | some d =>
      rw [hd] at hr
      exact ⟨d, rfl, by simpa using hr⟩

theorem day_of_mem_partitionOf {today : Date} {rows : List RawRow} {reg : Region}
    {p : PRow} (h : p ∈ partitionOf today rows reg) :
    ∃ d, p.row.day = some d ∧ 10 < d := by
  rw [partitionOf_eq] at h
  have h1 : p.row ∈ (prepare_df
      ((process_data today rows).filter fun r => r.region == reg)).map
        (fun q => q.row) :=
    List.mem_map_of_mem _ h
  rw [prepare_df_map_row] at h1
  have h2 := (sortDescNan_perm _).mem_iff.mp h1
  rcases List.mem_map.mp h2 with ⟨r, hr, hproj⟩
  rcases day_of_mem_process_data (List.mem_filter.mp hr).1 with ⟨d, hd, hgt⟩
  exact ⟨d, by rw [← hproj]; exact hd, hgt⟩

/-! ### Counting lemmas for the bucket × reason histogram -/

theorem insertAscBy_perm {α : Type} (le : α → α → Bool) (x : α) (l : List α) :
    (insertAscBy le x l).Perm (x :: l) := by
  induction l with
  | nil => exact List.Perm.refl _
  | cons y ys ih =>
      by_cases h : le x y = true
      · rw [insertAscBy, if_pos h]
      · rw [insertAscBy, if_neg h]
        exact (ih.cons y).trans (List.Perm.swap x y ys)

theorem sortAscBy_perm {α : Type} (le : α → α → Bool) (l : List α) :
    (sortAscBy le l).Perm l := by
  induction l with
  | nil => exact List.Perm.refl _
  | cons x xs ih => exact (insertAscBy_perm le x _).trans (ih.cons x)

theorem mem_sortStrings {s : String} {l : List String} :
    s ∈ sortStrings l ↔ s ∈ l :=
  (sortAscBy_perm strLe l).mem_iff

theorem nodup_sortStrings_dedup (l : List String) : (sortStrings l.dedup).Nodup :=
  (sortAscBy_perm strLe l.dedup).nodup_iff.mpr (List.nodup_dedup l)

theorem sum_map_add_nat {α : Type} (f g : α → Nat) (P : List α) :
    (P.map fun p => f p + g p).sum = (P.map f).sum + (P.map g).sum := by
  induction P with
  | nil => rfl
  | cons q P ih =>
      simp only [List.map_cons, List.sum_cons, ih]
      omega

theorem sum_ite_not_mem {α : Type} [DecidableEq α] (x : α) :
    ∀ P : List α, x ∉ P → (P.map fun p => if x = p then 1 else 0).sum = 0 := by
  intro P
  induction P with
  | nil => intro _; rfl
  | cons q P ih =>
      intro h
      have hq : x ≠ q := fun e => h (e ▸ List.mem_cons_self q P)
      simp only [List.map_cons, List.sum_cons, if_neg hq,
        ih fun hm => h (List.mem_cons_of_mem q hm)]

theorem sum_ite_mem {α : Type} [DecidableEq α] (x : α) :
    ∀ P : List α, P.Nodup → x ∈ P →
      (P.map fun p => if x = p then 1 else 0).sum = 1 := by
  intro P
  induction P with
  | nil => intro _ h; cases h
  | cons q P ih =>
      intro hnd hm
      rcases List.mem_cons.mp hm with rfl | hm'
      · have hx : x ∉ P := (List.nodup_cons.mp hnd).1
        simp [sum_ite_not_mem x P hx]
      · have hq : x ≠ q := by
          intro e
          exact (List.nodup_cons.mp hnd).1 (e ▸ hm')
        simp [if_neg hq, ih (List.nodup_cons.mp hnd).2 hm']

/-- Counting each element of a duplicate-free covering list of keys once adds
up to the length of the list being counted. -/
theorem sum_counts_cover {α : Type} [DecidableEq α] (P : List α) (hP : P.Nodup) :
    ∀ l : List α, (∀ x ∈ l, x ∈ P) →
      (P.map fun p => (l.filter fun y => decide (y = p)).length).sum = l.length := by
  intro l
  induction l with
  | nil =>
      intro _
      simp
  | cons x l ih =>
      intro hcov
      have hx : x ∈ P := hcov x (List.mem_cons_self x l)
      have ih' := ih fun y hy => hcov y (List.mem_cons_of_mem x hy)
      have hsplit : ∀ p : α, ((x :: l).filter fun y => decide (y = p)).length =
          (l.filter fun y => decide (y = p)).length + (if x = p then 1 else 0) := by
        intro p
        rw [List.filter_cons]
        by_cases h : x = p <;> simp [h]
      calc (P.map fun p => ((x :: l).filter fun y => decide (y = p)).length).sum
          = (P.map fun p => (l.filter fun y => decide (y = p)).length +
              (if x = p then 1 else 0)).sum :=
            congrArg (fun f => (P.map f).sum) (funext hsplit)
        _ = (P.map fun p => (l.filter fun y => decide (y = p)).length).sum +
              (P.map fun p => if x = p then 1 else 0).sum := sum_map_add_nat _ _ P
        _ = l.length + 1 := by rw [ih', sum_ite_mem x P hP hx]
        _ = (x :: l).length := rfl

theorem ageBucketOf_mem_bucketLabels {d : Int} {b : String}
    (h : ageBucketOf d = some b) : b ∈ bucketLabels := by
  unfold ageBucketOf at h
  split_ifs at h <;> (cases Option.some_inj.mp h; decide)

theorem ageBucketOf_isSome_of_nonneg {d : Int} (h : 0 ≤ d) :
    ∃ b, ageBucketOf d = some b := by
  unfold ageBucketOf
  split_ifs <;> first | exact ⟨_, rfl⟩ | omega

/-- The group count of `(b, c)` over tagged rows equals the count of the key
pair `(b, c)` in the flattened key list, as long as every row has a
bucket. -/
theorem filter_pair_len (b c : String) :
    ∀ l : List PRow, (∀ r ∈ l, ∃ bb, r.ageBucket = some bb) →
      (l.filter fun r => decide (r.ageBucket = some b ∧ r.row.reasonDesc = c)).length =
      ((l.map fun r => (r.ageBucket.getD "", r.row.reasonDesc)).filter
        fun x => decide (x = (b, c))).length := by
  intro l
  induction l with
  | nil => intro _; rfl
  | cons r l ih =>
      intro h
      rcases h r (List.mem_cons_self r l) with ⟨bb, hbb⟩
      have ih' := ih fun q hq => h q (List.mem_cons_of_mem r hq)
      rw [List.map_cons, List.filter_cons, List.filter_cons]
      have hcond : (decide (r.ageBucket = some b ∧ r.row.reasonDesc = c)) =
          (decide (((r.ageBucket.getD "", r.row.reasonDesc) : String × String) = (b, c))) := by
        rw [hbb]
        refine decide_eq_decide.mpr ?_
        simp [Prod.ext_iff]
      rw [hcond]
      by_cases hc : ((r.ageBucket.getD "", r.row.reasonDesc) : String × String) = (b, c)
      · rw [if_pos (decide_eq_true hc), if_pos (decide_eq_true hc),
          List.length_cons, List.length_cons, ih']
      · rw [if_neg fun hd => hc (of_decide_eq_true hd),
          if_neg fun hd => hc (of_decide_eq_true hd)]
        exact ih'

/-- The total of the bucket × reason histogram is the row count of the frame,
whenever every row carries a positive age (as every retained row does). -/
theorem agingHist_sum {df : List PRow}
    (hday : ∀ r ∈ df, ∃ d, r.row.day = some d ∧ 10 < d) :
    ((agingHist df).map fun e => e.2).sum = df.length := by
  have hsome : ∀ r ∈ agingTag df, ∃ bb, r.ageBucket = some bb ∧ bb ∈ bucketLabels := by
    intro r hr
    rcases List.mem_map.mp hr with ⟨r0, hr0, rfl⟩
    rcases hday r0 hr0 with ⟨d, hd, hgt⟩
    rcases ageBucketOf_isSome_of_nonneg (by omega : (0 : Int) ≤ d) with ⟨bb, hbb⟩
    refine ⟨bb, ?_, ageBucketOf_mem_bucketLabels hbb⟩
    show rowBucket r0 = some bb
    rw [rowBucket, hd]
    exact hbb
  have hsome' : ∀ r ∈ agingTag df, ∃ bb, r.ageBucket = some bb :=
    fun r hr => ⟨(hsome r hr).choose, (hsome r hr).choose_spec.1⟩
  set reasons := sortStrings ((agingTag df).map fun r => r.row.reasonDesc).dedup with hre
  set keys := (agingTag df).map fun r => (r.ageBucket.getD "", r.row.reasonDesc) with hk
  have hcov : ∀ x ∈ keys, x ∈ bucketLabels ×ˢ reasons := by
    intro x hx
    rcases List.mem_map.mp hx with ⟨r, hr, rfl⟩
    rcases hsome r hr with ⟨bb, hbb, hmem⟩
    refine List.mem_product.mpr ⟨?_, ?_⟩
    · rw [hbb]
      exact hmem
    · rw [hre, mem_sortStrings, List.mem_dedup]
      exact List.mem_map_of_mem _ hr
  have hnd : (bucketLabels ×ˢ reasons).Nodup :=
    List.Nodup.product (by decide) (nodup_sortStrings_dedup _)
  have hsum := sum_counts_cover (bucketLabels ×ˢ reasons) hnd keys hcov
  have hforms : ((agingHist df).map fun e => e.2).sum =
      ((bucketLabels ×ˢ reasons).map fun p =>
        (keys.filter fun y => decide (y = p)).length).sum := by
    rw [agingHist]
    rw [List.map_flatMap]
    have hprodmap : ((bucketLabels ×ˢ reasons).map fun p =>
        (keys.filter fun y => decide (y = p)).length) =
        bucketLabels.flatMap fun b => reasons.map fun c =>
          (keys.filter fun y => decide (y = (b, c))).length := by
      show ((bucketLabels.flatMap fun b => reasons.map fun c => (b, c)).map fun p =>
          (keys.filter fun y => decide (y = p)).length) = _
      rw [List.map_flatMap]
      refine congrArg _ (funext fun b => ?_)
      rw [List.map_map]
      rfl
    rw [hprodmap]
    refine congrArg List.sum (congrArg _ (funext fun b => ?_))
    rw [List.map_map]
    refine List.map_congr_left fun c _ => ?_
    exact filter_pair_len b c (agingTag df) hsome'
  rw [hforms, hsum, hk, List.length_map, agingTag, List.length_map]

/-! ### The claims -/

/-- C4: a null or empty source reason becomes the sentinel "GSS classic";
afterwards every record whose reason is "GSS classic" has its externalId
forced to the empty string (present, not null); and the region is the one
computed from the pre-overwrite externalId (`clean_lipa`'s output), i.e. the
overwrite does not feed back into the region. -/
theorem C4_sentinel_reason_blanks_externalId (today : Date) (r : RawRow) :
    ((r.reasonDesc = none ∨ r.reasonDesc = some "") →
      (processRow today r).reasonDesc = "GSS classic") ∧
    ((processRow today r).reasonDesc = "GSS classic" →
      (processRow today r).extDlvID = some "") ∧
    (processRow today r).region = regionOfExt (clean_lipa r) := by
  refine ⟨?_, ?_, rfl⟩
  · rintro (h | h) <;> simp [processRow, fillReason, h]
  · intro h
    have h' : fillReason r.reasonDesc = "GSS classic" := h
    show (if fillReason r.reasonDesc = "GSS classic" then some "" else clean_lipa r) =
      some ""
    rw [if_pos h']

/-- C4 witness: the claim's scenario — status field containing "GSS Classic",
blank reason — ends with the sentinel reason and an empty (not null)
externalId. -/
theorem C4_witness :
    (processRow demoToday demoRowClassic).reasonDesc = "GSS classic" ∧
    (processRow demoToday demoRowClassic).extDlvID = some "" := by
  have h := C4_sentinel_reason_blanks_externalId demoToday demoRowClassic
  exact ⟨h.1 (Or.inl rfl), h.2.1 (h.1 (Or.inl rfl))⟩

/-- C5: a record is classified USA exactly when its pre-overwrite externalId,
string-coerced with null printed as "None", starts with '7'; in particular a
null externalId yields Germany. -/
theorem C5_region_iff_startswith7 (today : Date) (r : RawRow) :
    ((processRow today r).region = Region.USA ↔
      pyStartsWith (pyStrNone (clean_lipa r)) "7" = true) ∧
    (clean_lipa r = none → (processRow today r).region = Region.Germany) := by
  constructor
  · show regionOfExt (clean_lipa r) = Region.USA ↔ _
    rw [regionOfExt]
    by_cases h : pyStartsWith (pyStrNone (clean_lipa r)) "7" = true
    · simp [h]
    · simp [h]
  · intro h
    show regionOfExt (clean_lipa r) = Region.Germany
    rw [h]
    rfl

/-- C5 witness: a '7…' external id lands in USA; a row with a missing
external id (and no sentinel status) lands in Germany. -/
theorem C5_witness :
    (processRow demoToday demoRowUSA).region = Region.USA ∧
    (processRow demoToday demoRowTen).region = Region.Germany :=
  ⟨(C5_region_iff_startswith7 demoToday demoRowUSA).1.mpr (by decide),
   (C5_region_iff_startswith7 demoToday demoRowTen).2 rfl⟩

/-- C6: retention is exactly `ageDays > 10`: every record of the classifier
output carries `some d` with `10 < d`; a mapped row belongs to the output iff
its day satisfies that bound (so a day of exactly 10 is dropped); and a row
whose creation date failed to parse is dropped. -/
theorem C6_retention_strictly_over_ten (today : Date) (rows : List RawRow) :
    (∀ rec ∈ process_data today rows, ∃ d, rec.day = some d ∧ 10 < d) ∧
    (∀ r ∈ rows, (processRow today r ∈ process_data today rows ↔
      ∃ d, (processRow today r).day = some d ∧ 10 < d)) ∧
    (∀ r ∈ rows, r.createdOn = none → processRow today r ∉ process_data today rows) := by
  refine ⟨fun rec h => day_of_mem_process_data h, fun r hr => ⟨?_, ?_⟩, ?_⟩
  · intro h
    exact day_of_mem_process_data h
  · rintro ⟨d, hd, hgt⟩
    refine List.mem_filter.mpr ⟨List.mem_map_of_mem _ hr, ?_⟩
    simp only [retained]
    rw [hd]
    simpa using hgt
  · intro r _ hnone hmem
    rcases day_of_mem_process_data hmem with ⟨d, hd, _⟩
    have : (processRow today r).day = none := by
      show r.createdOn.map _ = none
      rw [hnone]
      rfl
    rw [this] at hd
    exact Option.noConfusion hd

/-- C6 witness: the boundary row aged exactly 10 days and the unparsable-date
row are both excluded from the classifier output of the sample batch. -/
theorem C6_witness :
    processRow demoToday demoRowTen ∉ process_data demoToday demoRows ∧
    processRow demoToday demoRowNoDate ∉ process_data demoToday demoRows := by
  have h := C6_retention_strictly_over_ten demoToday demoRows
  constructor
  · intro hmem
    rcases (h.2.1 demoRowTen (by decide)).mp hmem with ⟨d, hd, hgt⟩
    rw [show (processRow demoToday demoRowTen).day = some 10 from rfl] at hd
    have := Option.some_inj.mp hd
    omega
  · exact h.2.2 demoRowNoDate (by decide) rfl

/-- C8: the USA and Germany partitions together hold exactly the retained
records — none lost, none duplicated. -/
theorem C8_partition_counts_add_up (today : Date) (rows : List RawRow) :
    (partitionOf today rows Region.USA).length +
      (partitionOf today rows Region.Germany).length =
      (process_data today rows).length := by
  rw [partitionOf_eq, partitionOf_eq, prepare_df_length, prepare_df_length]
  have hcompl : ((process_data today rows).filter fun r => r.region == Region.Germany) =
      (process_data today rows).filter fun r => !(r.region == Region.USA) := by
    apply List.filter_congr
    intro a _
    cases a.region <;> rfl
  rw [hcompl]
  have hperm := (List.filter_append_perm (fun r => r.region == Region.USA)
    (process_data today rows)).length_eq
  rw [List.length_append] at hperm
  exact hperm

/-- C9: the whole-file operation fails exactly on the reader's failure,
passing its single message through with no partial partitions; once rows are
read it always succeeds; and a row-level date-parse failure neither aborts
the batch nor affects any other row — the failed row just carries a null
date and is dropped. -/
theorem C9_error_boundaries (today : Date) :
    (∀ msg, process_data_run today (Except.error msg) = Except.error msg) ∧
    (∀ rows, ∃ usa ger, process_data_run today (Except.ok rows) =
      Except.ok (usa, ger)) ∧
    (∀ bad : RawRow, bad.createdOn = none →
      (processRow today bad).createdOn = none ∧
      (processRow today bad).day = none ∧
      ∀ pre post : List RawRow,
        process_data today (pre ++ bad :: post) = process_data today (pre ++ post)) := by
  refine ⟨fun msg => rfl, fun rows => ⟨_, _, rfl⟩, ?_⟩
  intro bad hb
  have hday : (processRow today bad).day = none := by
    show bad.createdOn.map _ = none
    rw [hb]
    rfl
  refine ⟨hb, hday, ?_⟩
  intro pre post
  rw [process_data, process_data, List.map_append, List.map_append, List.map_cons,
    List.filter_append, List.filter_append, List.filter_cons]
  have hret : retained (processRow today bad) = false := by
    simp only [retained]
    rw [hday]
  rw [hret]
  simp

/-- C9 witness: an unreadable file propagates its message; dropping the
unparsable-date row from the middle of a batch leaves the output
untouched. -/
theorem C9_witness :
    process_data_run demoToday (Except.error "bad file") = Except.error "bad file" ∧
    process_data demoToday ([demoRowClassic] ++ demoRowNoDate :: [demoRowUSA]) =
      process_data demoToday ([demoRowClassic] ++ [demoRowUSA]) := by
  have h := C9_error_boundaries demoToday
  exact ⟨h.1 "bad file", (h.2.2 demoRowNoDate rfl).2.2 [demoRowClassic] [demoRowUSA]⟩

/-- C10: a 'Combined Status' containing "GSS Classic" forces the region to
Germany whatever the external-delivery id holds, because `clean_lipa`
replaces the externalId with "GSS classic" before the region is derived and
that sentinel does not start with '7'. -/
theorem C10_status_sentinel_forces_germany (today : Date) (r : RawRow) (s : String)
    (h1 : r.combinedStatus = some s) (h2 : containsSub s "GSS Classic" = true) :
    (processRow today r).region = Region.Germany := by
  have hcl : clean_lipa r = some "GSS classic" := by
    unfold clean_lipa
    rw [h1]
    exact if_pos h2
  show regionOfExt (clean_lipa r) = Region.Germany
  rw [hcl]
  rfl

/-- C10 witness: the sample sentinel row carries a '7…' external id yet lands
in Germany. -/
theorem C10_witness : (processRow demoToday demoRowClassic).region = Region.Germany :=
  C10_status_sentinel_forces_germany demoToday demoRowClassic "xx GSS Classic yy"
    rfl (by decide)

/-- C7: the aging histogram uses exactly the four left-closed, right-open
buckets [0,30), [30,60), [60,90), [90,∞) — in particular a day of exactly 30
falls in "31-60 days" — and the histogram's counts add up to the partition's
record count. -/
theorem C7_aging_buckets_partition_total (today : Date) (rows : List RawRow)
    (reg : Region) :
    (∀ d : Int, (0 ≤ d →
        ageBucketOf d = some (if d < 30 then "0-30 days"
          else if d < 60 then "31-60 days"
          else if d < 90 then "61-90 days" else ">90 days")) ∧
      (d < 0 → ageBucketOf d = none)) ∧
    ageBucketOf 30 = some "31-60 days" ∧
    (∀ hist, (create_aging_distribution (partitionOf today rows reg)).1 = some hist →
      (hist.map fun e => e.2).sum = (partitionOf today rows reg).length) := by
  refine ⟨?_, by decide, ?_⟩
  · intro d
    constructor <;> intro h <;> unfold ageBucketOf <;>
      split_ifs <;> first | rfl | omega
  · intro hist hh
    by_cases hemp : (partitionOf today rows reg).isEmpty
    · rw [create_aging_distribution, if_pos hemp] at hh
      exact Option.noConfusion hh
    · rw [create_aging_distribution, if_neg hemp] at hh
      rw [← Option.some_inj.mp hh]
      exact agingHist_sum fun r hr => day_of_mem_partitionOf hr

/-- C7 witness: the sample Germany partition's histogram — one zero row per
empty bucket, 2 in "31-60 days" — sums to the partition size, and 30 sits in
the second bucket. -/
theorem C7_witness :
    (demoHistG.map fun e => e.2).sum =
      (partitionOf demoToday demoRows Region.Germany).length ∧
    ageBucketOf 30 = some "31-60 days" := by
  have h := C7_aging_buckets_partition_total demoToday demoRows Region.Germany
  exact ⟨h.2.2 demoHistG (by decide), h.2.1⟩

/-- C1: the "closed this month" headline ignores the year.  With "today" in
October 2026, a USA partition holding one record created 2025-10-11 whose
status contains "Closed" reports `closedThisMonth = 1`, while the claimed
month-AND-year count is 0: `create_kpi_cards` compares only `dt.month`
against the current month — the `current_year` it computes on line 20 of
visualizations.py is never used. -/
theorem C1_closed_this_month_ignores_year :
    ((create_kpi_cards demoToday demoKpiPart).1.map fun k => k.closedThisMonth) =
      some 1 ∧
    closedThisMonthSpec demoToday demoKpiPart = 0 ∧
    (demoKpiPart.map fun p => p.row.createdOn.map fun d => (d.month, d.year)) =
      [some (10, 2025)] ∧
    demoToday.month = 10 ∧ demoToday.year = 2026 :=
  ⟨by decide, by decide, by decide, rfl, rfl⟩

/-- C2: two of the seven aggregator views write display columns into the
partition frame they are handed instead of a copy.  On the sample Germany
partition, `create_aging_distribution` hands back a frame that differs from
its input (it has filled the 'Age Bucket' column, previously absent) and
`create_heatmap` does the same with the 'Model' column, while the other five
views return the partition unchanged; the underlying record fields are
untouched — only the new columns appear. -/
theorem C2_two_views_write_into_partition :
    (create_aging_distribution demoPartG).2 ≠ demoPartG ∧
    (create_heatmap demoPartG).2 ≠ demoPartG ∧
    ((create_aging_distribution demoPartG).2.map fun p => p.ageBucket) =
      [some "31-60 days", some "31-60 days"] ∧
    (demoPartG.map fun p => p.ageBucket) = [none, none] ∧
    ((create_heatmap demoPartG).2.map fun p => p.model) =
      [some "ABC1", some "ABC1"] ∧
    (demoPartG.map fun p => p.model) = [none, none] ∧
    ((create_aging_distribution demoPartG).2.map fun p => p.row) =
      demoPartG.map (fun p => p.row) ∧
    ((create_heatmap demoPartG).2.map fun p => p.row) =
      demoPartG.map (fun p => p.row) ∧
    (create_kpi_cards demoToday demoPartG).2 = demoPartG ∧
    (create_aging_trend demoPartG).2 = demoPartG ∧
    (create_reason_distribution demoPartG).2 = demoPartG ∧
    (create_status_donut demoPartG).2 = demoPartG ∧
    (create_top_aging_table demoPartG).2 = demoPartG :=
  ⟨by decide, by decide, by decide, by decide, by decide, by decide, by decide,
   by decide, by decide, by decide, by decide, by decide, by decide⟩

end LIPA
